import Mathlib

/-!
# Verification of the `describe_df` statistic-selection and result-reshaping engine

Shallow embedding of `src/describe.rs`: a `describe()` implementation for
Polars `DataFrame`/`LazyFrame` that plans one aggregation expression per
(column, statistic) pair, executes them in a single batched `select`, and
reshapes the single-row wide result into a long-form table of display
strings.

Modelling conventions:
* The Polars engine (schema introspection, expression evaluation) is external
  to the repository; a `LazyFrame` is embedded as its schema together with an
  opaque `execSelect` function standing for `select(exprs).collect()`.
* Rust `f64` values (percentile fractions, aggregate results) are modelled as
  `Rat`; machine floats only flow through formatting in the claims at stake.
* Aggregation expressions are embedded as an inductive `AggExpr` recording
  exactly which DSL expression `describe_lazy_impl` builds
  (e.g. `.std c 1` for `col(c).std(1)`, `.meanBoolAsF64 c` for
  `col(c).cast(Float64).mean()`, `.nullLitF64` for `lit(NULL).cast(Float64)`).
* Fallible Rust paths (`?`, `anyhow::Result`) are embedded as `Except`.
-/

namespace DescribeDf

/-- Polars data types, collapsed to the constructors `describe_lazy_impl`
dispatches on: the numeric family (`is_numeric`), the temporal family
(`is_temporal`), the nested family (`is_nested`), `Boolean`, `String`,
`Binary`, `Categorical(..)`, `Null`, `Unknown(_)`. -/
inductive DataType where
  | int8 | int16 | int32 | int64
  | uint8 | uint16 | uint32 | uint64
  | float32 | float64
  | boolean
  | string
  | binary
  | date | datetime | duration | time
  | categorical
  | list | array | struct
  | null
  | unknown
deriving DecidableEq, Repr

/-- Polars `DataType::is_numeric`: integer and floating types (not Boolean,
not temporal). -/
def DataType.is_numeric : DataType → Bool
  | .int8 | .int16 | .int32 | .int64
  | .uint8 | .uint16 | .uint32 | .uint64
  | .float32 | .float64 => true
  | _ => false

/-- Polars `DataType::is_temporal`: Date, Datetime, Duration, Time. -/
def DataType.is_temporal : DataType → Bool
  | .date | .datetime | .duration | .time => true
  | _ => false

/-- Polars `DataType::is_nested`: List, Array, Struct. -/
def DataType.is_nested : DataType → Bool
  | .list | .array | .struct => true
  | _ => false

/-- A scalar cell of the engine's wide result (Polars `AnyValue`),
with `f64` modelled as `Rat`. -/
inductive AnyValue where
  | null
  | int (n : Int)
  | float (q : Rat)
  | boolean (b : Bool)
  | str (s : String)
deriving DecidableEq, Repr

/-- `AnyValue::is_null()`. -/
def AnyValue.is_null : AnyValue → Bool
  | .null => true
  | _ => false

/-- Decimal digits of `n`, most significant first, via fuel-bounded
structural recursion (`fuel ≥ n` suffices; empty for `n = 0`). -/
def natDecimalGo : Nat → Nat → List Char
  | _, 0 => []
  | 0, _ => []
  | fuel + 1, n => natDecimalGo fuel (n / 10) ++ [Nat.digitChar (n % 10)]

/-- Decimal rendering of a natural number (Rust `Display` for unsigned
integers). -/
def natDecimal (n : Nat) : String :=
  if n = 0 then "0" else ⟨natDecimalGo n n⟩

/-- Decimal rendering of an integer (Rust `Display` for signed integers). -/
def intDecimal (n : Int) : String :=
  if n < 0 then "-" ++ natDecimal n.natAbs else natDecimal n.natAbs

/-- Exactly `w` decimal digits of `n` (leading zeros kept); used for the
fractional part of fixed-precision float formatting. -/
def natDigitsPad : Nat → Nat → String
  | _, 0 => ""
  | n, w + 1 => natDigitsPad (n / 10) w ++ String.singleton (Nat.digitChar (n % 10))

/-- Rust `format!("{v:.6}")` on an `f64` value modelled as `Rat`: round the
magnitude to 6 fractional digits (half away from zero, computed directly on
the numerator and denominator) and print with exactly 6 digits after the
point. -/
def formatFixed6 (q : Rat) : String :=
  let neg := q.num < 0
  let scaled : Nat := (q.num.natAbs * 2000000 + q.den) / (2 * q.den)
  (if neg then "-" else "") ++ natDecimal (scaled / 1000000) ++ "." ++ natDigitsPad (scaled % 1000000) 6

/-- Polars `AnyValue` `Display` (`format!("{val}")`): the scalar's natural
display representation. -/
def AnyValue.display : AnyValue → String
  | .null => "null"
  | .int n => intDecimal n
  | .float q => toString q
  | .boolean b => if b then "true" else "false"
  | .str s => s

/-- Polars `AnyValue` `Display` under a `.6` precision flag
(`format!("{val:.6}")`): fixed 6-digit rendering for float scalars, the
natural representation otherwise. -/
def AnyValue.displayPrec6 : AnyValue → String
  | .float q => formatFixed6 q
  | v => v.display

/-- The engine's own failure (Polars execution error surfaced through
`anyhow`); opaque to the core. -/
structure EngineError where
  msg : String
deriving DecidableEq, Repr

/-- Failures a `describe` call can surface: the empty-schema validation
error (line 76-80 of `describe.rs`), a propagated engine error (the `?` on
`collect()`), a `ColumnNotFound` from the `?` on `df_metrics.column(..)`
(line 229), and a structural error from `DataFrame::new` (line 262). -/
inductive DescribeError where
  | emptySchema
  | engine (e : EngineError)
  | columnNotFound (name : String)
  | shapeMismatch
deriving DecidableEq, Repr

/-- One aggregation expression built by the planner loop of
`describe_lazy_impl` (lines 112-181). -/
inductive AggExpr where
  /-- `dsl::lit(NULL).cast(DataType::Float64)`: the typed null placeholder. -/
  | nullLitF64
  /-- `col(c).count()`. -/
  | count (c : String)
  /-- `col(c).null_count()`. -/
  | nullCount (c : String)
  /-- `col(c).mean()`. -/
  | mean (c : String)
  /-- `col(c).cast(DataType::Float64).mean()`: boolean widened before averaging. -/
  | meanBoolAsF64 (c : String)
  /-- `col(c).std(ddof)`; the source always passes `ddof = 1`. -/
  | std (c : String) (ddof : Nat)
  /-- `col(c).min()`. -/
  | min (c : String)
  /-- `col(c).max()`. -/
  | max (c : String)
  /-- `col(c).quantile(lit(p), QuantileMethod::Linear)`. -/
  | quantileLinear (c : String) (p : Rat)
deriving DecidableEq, Repr

/-- An aliased expression: `expr.alias(key)`. -/
structure AggRequest where
  key : String
  expr : AggExpr
deriving DecidableEq, Repr

/-- The wide single-row result of the batched `select`: named columns of
scalars (a `DataFrame`; each column has one row in correct operation). -/
structure WideResult where
  columns : List (String × List AnyValue)
deriving DecidableEq, Repr

/-- Polars `DataFrame::column(name)`: the named column, or `ColumnNotFound`. -/
def WideResult.column (w : WideResult) (name : String) : Except DescribeError (List AnyValue) :=
  match w.columns.find? (fun c => c.1 == name) with
  | some c => .ok c.2
  | none => .error (.columnNotFound name)

/-- A lazy dataset as the core sees it: its schema plus the engine's batched
execution `select(exprs).collect()` (external, opaque). -/
structure LazyFrame where
  schema : List (String × DataType)
  execSelect : List AggRequest → Except EngineError WideResult

/-- An eager dataset; `describe` only ever uses it through its lazy view. -/
structure DataFrame where
  schema : List (String × DataType)
  execSelect : List AggRequest → Except EngineError WideResult

/-- `DataFrame::lazy()`: the lazy view of the same data. -/
def DataFrame.lazy (df : DataFrame) : LazyFrame :=
  ⟨df.schema, df.execSelect⟩

/-- The final long-form table: named columns of display strings, the first
being the `"statistic"` label column. -/
structure OutputTable where
  columns : List (String × List String)
deriving DecidableEq, Repr

/-- Rust `(p * 100.0) as i32`: truncation toward zero. -/
def ratTruncToInt (q : Rat) : Int :=
  Int.tdiv q.num q.den

/-- The metric label row names (lines 86-97): `count`, `null_count`, `mean`,
`std`, `min`, one `"{percent}%"` label per percentile, `max`. -/
def mkMetrics (percentiles : List Rat) : List String :=
  ["count", "null_count", "mean", "std", "min"]
    ++ percentiles.map (fun p => toString (ratTruncToInt (p * 100)) ++ "%")
    ++ ["max"]

/-- The `skip_minmax` closure (lines 100-106). -/
def skip_minmax (dtype : DataType) : Bool :=
  dtype.is_nested
    || (match dtype with
        | .categorical | .null | .unknown => true
        | _ => false)

/-- The synthetic key of the `i`-th percentile request for a column:
`format!("{p}:{i}:{col_name_str}")` (line 170). -/
def pctKey (p : Rat) (i : Nat) (col_name_str : String) : String :=
  toString p ++ ":" ++ toString i ++ ":" ++ col_name_str

/-- The planner body for one column (lines 112-181): the aliased aggregation
requests pushed for `(col_name_str, dtype)`, in source push order. -/
def planColumn (col_name_str : String) (dtype : DataType) (percentiles : List Rat) :
    List AggRequest :=
  let is_numeric := dtype.is_numeric
  let is_temporal := !is_numeric && dtype.is_temporal
  let count_expr : AggRequest := ⟨"count:" ++ col_name_str, .count col_name_str⟩
  let null_count_expr : AggRequest := ⟨"null_count:" ++ col_name_str, .nullCount col_name_str⟩
  let mean_expr : AggRequest :=
    ⟨"mean:" ++ col_name_str,
      if is_temporal || is_numeric || dtype == .boolean then
        (if dtype == .boolean then .meanBoolAsF64 col_name_str else .mean col_name_str)
      else .nullLitF64⟩
  let std_expr : AggRequest :=
    ⟨"std:" ++ col_name_str, if is_numeric then .std col_name_str 1 else .nullLitF64⟩
  let min_expr : AggRequest :=
    ⟨"min:" ++ col_name_str, if skip_minmax dtype then .nullLitF64 else .min col_name_str⟩
  let max_expr : AggRequest :=
    ⟨"max:" ++ col_name_str, if skip_minmax dtype then .nullLitF64 else .max col_name_str⟩
  let pct_exprs : List AggRequest :=
    percentiles.enum.map (fun ip =>
      ⟨pctKey ip.2 ip.1 col_name_str,
        if is_numeric then .quantileLinear col_name_str ip.2 else .nullLitF64⟩)
  [count_expr, null_count_expr, mean_expr, std_expr, min_expr] ++ pct_exprs ++ [max_expr]

/-- The flat request list over all columns, in schema order (the
`metric_exprs` vector). -/
def buildMetricExprs (schema : List (String × DataType)) (percentiles : List Rat) :
    List AggRequest :=
  schema.flatMap (fun c => planColumn c.1 c.2 percentiles)

/-- The reshaper's reconstruction of the synthetic key for
`(col_name_str, metric_idx)` (lines 213-226). `percentiles[pct_idx]` is
in range whenever `metric_idx < n_metrics - 1` with
`n_metrics = 6 + percentiles.length`; the total `getD` mirrors the
in-range indexing. -/
def metricName (percentiles : List Rat) (n_metrics : Nat) (col_name_str : String)
    (metric_idx : Nat) : String :=
  if metric_idx = 0 then "count:" ++ col_name_str
  else if metric_idx = 1 then "null_count:" ++ col_name_str
  else if metric_idx = 2 then "mean:" ++ col_name_str
  else if metric_idx = 3 then "std:" ++ col_name_str
  else if metric_idx = 4 then "min:" ++ col_name_str
  else if metric_idx < n_metrics - 1 then
    let pct_idx := metric_idx - 5
    pctKey (percentiles.getD pct_idx 0) pct_idx col_name_str
  else "max:" ++ col_name_str

/-- The `is_numeric_result` flag (lines 206-208). -/
def is_numeric_result (dtype : DataType) : Bool :=
  dtype.is_numeric || dtype.is_nested
    || (match dtype with
        | .null | .boolean => true
        | _ => false)

/-- The per-cell formatting chain (lines 231-250). -/
def formatCell (dtype : DataType) (n_metrics metric_idx : Nat) (val : AnyValue) : String :=
  if val.is_null then "null"
  else if metric_idx ≤ 1 then val.display
  else if is_numeric_result dtype && (metric_idx == 2 || metric_idx == 3) then val.displayPrec6
  else if dtype == .boolean && (metric_idx == 4 || metric_idx == n_metrics - 1) then
    (if metric_idx == 4 then "false" else "true")
  else val.display

/-- One cell of the reshaper (lines 228-255): look the key up in the wide
result (the `?` propagates a missing column), then `get(0)`; a missing row
degrades to `"null"`. -/
def reshapeCell (df_metrics : WideResult) (percentiles : List Rat) (n_metrics : Nat)
    (col_name_str : String) (dtype : DataType) (metric_idx : Nat) :
    Except DescribeError String :=
  match df_metrics.column (metricName percentiles n_metrics col_name_str metric_idx) with
  | .error e => .error e
  | .ok rows =>
    match rows.get? 0 with
    | some val => .ok (formatCell dtype n_metrics metric_idx val)
    | none => .ok "null"

/-- Effectful `map` over a list in `Except`, mirroring the source's
sequential `for` loops that push into a vector and `?`-propagate. -/
def mapExcept {α β : Type} (f : α → Except DescribeError β) : List α → Except DescribeError (List β)
  | [] => .ok []
  | a :: l =>
    match f a with
    | .error e => .error e
    | .ok b =>
      match mapExcept f l with
      | .error e => .error e
      | .ok bs => .ok (b :: bs)

/-- The reshaper body for one column (lines 197-260): all `n_metrics` cells,
then the named output column. -/
def reshapeColumn (df_metrics : WideResult) (percentiles : List Rat) (n_metrics : Nat)
    (col_name_str : String) (dtype : DataType) :
    Except DescribeError (String × List String) :=
  match mapExcept (reshapeCell df_metrics percentiles n_metrics col_name_str dtype)
      (List.range n_metrics) with
  | .error e => .error e
  | .ok col_values => .ok (col_name_str, col_values)

/-- Polars `DataFrame::new(result_columns)` (line 262): requires equal column
lengths and unique column names. -/
def mkOutput (cols : List (String × List String)) : Except DescribeError OutputTable :=
  if (∀ c ∈ cols, c.2.length = (cols.headD ("", [])).2.length) ∧ (cols.map Prod.fst).Nodup
  then .ok ⟨cols⟩
  else .error .shapeMismatch

/-- `describe_lazy_impl` (lines 68-263): empty-schema check, percentile
defaulting, metric labels, batched plan, single engine execution, reshape. -/
def describe_lazy_impl (lazy_frame : LazyFrame) (percentiles : Option (List Rat)) :
    Except DescribeError OutputTable :=
  let schema := lazy_frame.schema
  if schema.isEmpty then .error .emptySchema
  else
    let percentiles := percentiles.getD [0.25, 0.50, 0.75]
    let metrics := mkMetrics percentiles
    let metric_exprs := buildMetricExprs schema percentiles
    match lazy_frame.execSelect metric_exprs with
    | .error e => .error (.engine e)
    | .ok df_metrics =>
      let n_metrics := metrics.length
      match mapExcept (fun c => reshapeColumn df_metrics percentiles n_metrics c.1 c.2) schema with
      | .error e => .error e
      | .ok dataCols => mkOutput (("statistic", metrics) :: dataCols)

/-- `impl Describable for DataFrame` (lines 50-56): convert to a `LazyFrame`
and delegate. -/
def DataFrame.describe (df : DataFrame) (percentiles : Option (List Rat)) :
    Except DescribeError OutputTable :=
  describe_lazy_impl df.lazy percentiles

/-- `impl Describable for LazyFrame` (lines 59-63): delegate directly. -/
def LazyFrame.describe (lf : LazyFrame) (percentiles : Option (List Rat)) :
    Except DescribeError OutputTable :=
  describe_lazy_impl lf percentiles

/-! ## Engine contract

The Polars engine is outside this repository; the contract below captures the
shape of what a conforming batched execution returns for each request kind:
one column per synthetic key holding exactly one row, a null scalar for the
`lit(NULL)` placeholder, an integer scalar for `count`/`null_count`, and a
null-or-float scalar for `mean`/`std`/`quantile` (all of which the source
requests as `Float64`-valued aggregates). -/

/-- The scalar shapes a conforming engine may return for one expression. -/
def scalarOk : AggExpr → AnyValue → Bool
  | .nullLitF64, v => v == .null
  | .count _, v | .nullCount _, v =>
    (match v with
     | .int _ => true
     | _ => false)
  | .mean _, v | .meanBoolAsF64 _, v | .std _ _, v | .quantileLinear _ _, v =>
    (match v with
     | .null => true
     | .float _ => true
     | _ => false)
  | .min _, _ | .max _, _ => true

/-- One request is answered by a single-row column of conforming shape. -/
def columnScalarOk (w : WideResult) (r : AggRequest) : Bool :=
  match w.column r.key with
  | .ok [v] => scalarOk r.expr v
  | _ => false

/-- The wide result answers every request of the batch conformingly. -/
def engineConforms (reqs : List AggRequest) (w : WideResult) : Bool :=
  reqs.all (columnScalarOk w)

/-! ## Concrete fixtures

A small stub engine used to evaluate the development on closed inputs:
it answers every request with a fixed conforming scalar. -/

/-- Stub scalar answer per expression kind. -/
def stubVal : AggExpr → AnyValue
  | .nullLitF64 => .null
  | .count _ => .int 5
  | .nullCount _ => .int 0
  | .mean _ => .float 3
  | .meanBoolAsF64 _ => .float (mkRat 3 5)
  | .std _ _ => .float (mkRat 5 4)
  | .min _ => .int 1
  | .max _ => .int 5
  | .quantileLinear _ p => .float p

/-- The stub engine's wide result for a batch of requests. -/
def stubWide (reqs : List AggRequest) : WideResult :=
  ⟨reqs.map (fun r => (r.key, [stubVal r.expr]))⟩

/-- A two-column frame (one numeric, one boolean) over the stub engine. -/
def lfEx : LazyFrame :=
  ⟨[("a", .int64), ("b", .boolean)], fun reqs => .ok (stubWide reqs)⟩

/-- The stub wide result for `lfEx` with an empty percentile list. -/
def wEx : WideResult :=
  stubWide (buildMetricExprs lfEx.schema [])

/-- The output table `describe` produces for `lfEx` with an empty percentile
list (checked by evaluation below). -/
def tEx : OutputTable :=
  ⟨[("statistic", ["count", "null_count", "mean", "std", "min", "max"]),
    ("a", ["5", "0", "3.000000", "1.250000", "1", "5"]),
    ("b", ["5", "0", "0.600000", "null", "false", "true"])]⟩

/-- A frame whose engine returns a wide result with no columns at all, so
every synthetic key is absent. -/
def lfMissing : LazyFrame :=
  ⟨[("a", .float64)], fun _ => .ok ⟨[]⟩⟩

/-- A frame with an empty schema. -/
def lfEmpty : LazyFrame :=
  ⟨[], fun reqs => .ok (stubWide reqs)⟩

/-- A wide result whose `count:a` column exists but has no row 0. -/
def wEmptyRow : WideResult :=
  ⟨[("count:a", [])]⟩

/-! ## Helper lemmas -/

theorem mapExcept_ok_length {α β : Type} {f : α → Except DescribeError β} :
    ∀ {l : List α} {res : List β}, mapExcept f l = .ok res → res.length = l.length := by
  intro l
  induction l with
  | nil => intro res h; simp [mapExcept] at h; simp [← h]
  | cons a t ih =>
    intro res h
    simp only [mapExcept] at h
    cases hfa : f a with
    | error e => rw [hfa] at h; simp at h
    | ok b =>
      rw [hfa] at h
      cases hmt : mapExcept f t with
      | error e => rw [hmt] at h; simp at h
      | ok bs =>
        rw [hmt] at h
        simp at h
        subst h
        simp [ih hmt]

theorem mapExcept_ok_get? {α β : Type} {f : α → Except DescribeError β} :
    ∀ {l : List α} {res : List β} {k : Nat} {a : α},
      mapExcept f l = .ok res → l.get? k = some a →
      ∃ b, res.get? k = some b ∧ f a = .ok b := by
  intro l
  induction l with
  | nil => intro res k a _ hk; simp at hk
  | cons x t ih =>
    intro res k a h hk
    simp only [mapExcept] at h
    cases hfa : f x with
    | error e => rw [hfa] at h; simp at h
    | ok b =>
      rw [hfa] at h
      cases hmt : mapExcept f t with
      | error e => rw [hmt] at h; simp at h
      | ok bs =>
        rw [hmt] at h
        simp at h
        subst h
        cases k with
        | zero =>
          simp at hk
          subst hk
          exact ⟨b, rfl, hfa⟩
        | succ k =>
          obtain ⟨b', hb', hfb'⟩ := ih hmt hk
          exact ⟨b', hb', hfb'⟩

theorem mapExcept_ok_mem {α β : Type} {f : α → Except DescribeError β} :
    ∀ {l : List α} {res : List β} {b : β},
      mapExcept f l = .ok res → b ∈ res → ∃ a ∈ l, f a = .ok b := by
  intro l
  induction l with
  | nil => intro res b h hb; simp [mapExcept] at h; subst h; simp at hb
  | cons x t ih =>
    intro res b h hb
    simp only [mapExcept] at h
    cases hfa : f x with
    | error e => rw [hfa] at h; simp at h
    | ok c =>
      rw [hfa] at h
      cases hmt : mapExcept f t with
      | error e => rw [hmt] at h; simp at h
      | ok bs =>
        rw [hmt] at h
        simp at h
        subst h
        rcases List.mem_cons.mp hb with hb | hb
        · exact ⟨x, List.mem_cons_self x t, hb ▸ hfa⟩
        · obtain ⟨a, ha, hfb⟩ := ih hmt hb
          exact ⟨a, List.mem_cons_of_mem x ha, hfb⟩

theorem mapExcept_error_mem {α β : Type} {f : α → Except DescribeError β} :
    ∀ {l : List α} {e : DescribeError},
      mapExcept f l = .error e → ∃ a ∈ l, f a = .error e := by
  intro l
  induction l with
  | nil => intro e h; simp [mapExcept] at h
  | cons x t ih =>
    intro e h
    simp only [mapExcept] at h
    cases hfa : f x with
    | error e' =>
      rw [hfa] at h
      simp at h
      exact ⟨x, List.mem_cons_self x t, by rw [hfa, h]⟩
    | ok b =>
      rw [hfa] at h
      cases hmt : mapExcept f t with
      | error e' =>
        rw [hmt] at h
        simp at h
        obtain ⟨a, ha, hfb⟩ := ih (by rw [hmt, h])
        exact ⟨a, List.mem_cons_of_mem x ha, hfb⟩
      | ok bs => rw [hmt] at h; simp at h

theorem mapExcept_ok_map_eq {α β γ : Type} {f : α → Except DescribeError β}
    {g : β → γ} {gh : α → γ} (hfg : ∀ a b, f a = .ok b → g b = gh a) :
    ∀ {l : List α} {res : List β}, mapExcept f l = .ok res → res.map g = l.map gh := by
  intro l
  induction l with
  | nil => intro res h; simp [mapExcept] at h; simp [← h]
  | cons x t ih =>
    intro res h
    simp only [mapExcept] at h
    cases hfa : f x with
    | error e => rw [hfa] at h; simp at h
    | ok b =>
      rw [hfa] at h
      cases hmt : mapExcept f t with
      | error e => rw [hmt] at h; simp at h
      | ok bs =>
        rw [hmt] at h
        simp at h
        subst h
        simp [hfg x b hfa, ih hmt]

theorem mkOutput_ok {cols : List (String × List String)} {t : OutputTable}
    (h : mkOutput cols = .ok t) : t.columns = cols := by
  unfold mkOutput at h
  split at h
  · simp at h
    rw [← h]
  · simp at h

theorem mkMetrics_length (ps : List Rat) : (mkMetrics ps).length = ps.length + 6 := by
  simp [mkMetrics]

theorem get?_cons5 {α : Type} (a b c d e : α) (l : List α) (i : Nat) :
    (a :: b :: c :: d :: e :: l).get? (5 + i) = l.get? i := by
  rw [Nat.add_comm]
  rfl

theorem enum_get?_getD {α : Type} (d₀ : α) (l : List α) (i : Nat) (hi : i < l.length) :
    l.enum.get? i = some (i, l.getD i d₀) := by
  have h := List.get?_eq_get hi
  rw [List.enum_get?, h]
  simp [List.getD_eq_get?, h, List.getElem?_eq_getElem hi]

theorem planColumn_length (c : String) (d : DataType) (ps : List Rat) :
    (planColumn c d ps).length = ps.length + 6 := by
  simp [planColumn]

theorem planColumn_get?_zero (c : String) (d : DataType) (ps : List Rat) :
    (planColumn c d ps).get? 0 = some ⟨"count:" ++ c, .count c⟩ := rfl

theorem planColumn_get?_one (c : String) (d : DataType) (ps : List Rat) :
    (planColumn c d ps).get? 1 = some ⟨"null_count:" ++ c, .nullCount c⟩ := rfl

theorem planColumn_get?_two (c : String) (d : DataType) (ps : List Rat) :
    (planColumn c d ps).get? 2 = some ⟨"mean:" ++ c,
      if (!d.is_numeric && d.is_temporal) || d.is_numeric || d == .boolean then
        (if d == .boolean then .meanBoolAsF64 c else .mean c)
      else .nullLitF64⟩ := rfl

theorem planColumn_get?_three (c : String) (d : DataType) (ps : List Rat) :
    (planColumn c d ps).get? 3 = some ⟨"std:" ++ c,
      if d.is_numeric then .std c 1 else .nullLitF64⟩ := rfl

theorem planColumn_get?_four (c : String) (d : DataType) (ps : List Rat) :
    (planColumn c d ps).get? 4 = some ⟨"min:" ++ c,
      if skip_minmax d then .nullLitF64 else .min c⟩ := rfl

theorem planColumn_get?_pct (c : String) (d : DataType) (ps : List Rat) (i : Nat)
    (hi : i < ps.length) :
    (planColumn c d ps).get? (5 + i) = some ⟨pctKey (ps.getD i 0) i c,
      if d.is_numeric then .quantileLinear c (ps.getD i 0) else .nullLitF64⟩ := by
  have h1 : (planColumn c d ps).get? (5 + i)
      = ((ps.enum.map (fun (ip : Nat × Rat) =>
            (⟨pctKey ip.2 ip.1 c,
              if d.is_numeric then AggExpr.quantileLinear c ip.2 else .nullLitF64⟩ : AggRequest)))
          ++ [(⟨"max:" ++ c, if skip_minmax d then .nullLitF64 else .max c⟩ : AggRequest)]).get? i := by
    rw [Nat.add_comm]
    rfl
  rw [h1, List.get?_append (by simpa using hi), List.get?_map, enum_get?_getD 0 ps i hi]
  rfl

theorem planColumn_get?_max (c : String) (d : DataType) (ps : List Rat) :
    (planColumn c d ps).get? (5 + ps.length) = some ⟨"max:" ++ c,
      if skip_minmax d then .nullLitF64 else .max c⟩ := by
  have h1 : (planColumn c d ps).get? (5 + ps.length)
      = ((ps.enum.map (fun (ip : Nat × Rat) =>
            (⟨pctKey ip.2 ip.1 c,
              if d.is_numeric then AggExpr.quantileLinear c ip.2 else .nullLitF64⟩ : AggRequest)))
          ++ [(⟨"max:" ++ c, if skip_minmax d then .nullLitF64 else .max c⟩ : AggRequest)]).get? ps.length := by
    rw [Nat.add_comm]
    rfl
  rw [h1, List.get?_append_right (by simp)]
  simp

theorem metricName_zero (ps : List Rat) (nM : Nat) (c : String) :
    metricName ps nM c 0 = "count:" ++ c := rfl

theorem metricName_one (ps : List Rat) (nM : Nat) (c : String) :
    metricName ps nM c 1 = "null_count:" ++ c := rfl

theorem metricName_two (ps : List Rat) (nM : Nat) (c : String) :
    metricName ps nM c 2 = "mean:" ++ c := rfl

theorem metricName_three (ps : List Rat) (nM : Nat) (c : String) :
    metricName ps nM c 3 = "std:" ++ c := rfl

theorem metricName_four (ps : List Rat) (nM : Nat) (c : String) :
    metricName ps nM c 4 = "min:" ++ c := rfl

theorem metricName_pct (ps : List Rat) (c : String) (i : Nat) (hi : i < ps.length) :
    metricName ps (ps.length + 6) c (5 + i) = pctKey (ps.getD i 0) i c := by
  rw [Nat.add_comm 5 i]
  unfold metricName
  rw [if_neg (by omega), if_neg (by omega), if_neg (by omega), if_neg (by omega),
    if_neg (by omega), if_pos (by omega)]
  simp

theorem metricName_max (ps : List Rat) (c : String) :
    metricName ps (ps.length + 6) c (ps.length + 5) = "max:" ++ c := by
  unfold metricName
  rw [if_neg (by omega), if_neg (by omega), if_neg (by omega), if_neg (by omega),
    if_neg (by omega), if_neg (by omega)]

theorem column_error {w : WideResult} {name : String} {e : DescribeError}
    (h : w.column name = .error e) : e = .columnNotFound name := by
  unfold WideResult.column at h
  cases hf : w.columns.find? (fun c => c.1 == name) with
  | some c => rw [hf] at h; simp at h
  | none =>
    rw [hf] at h
    simp at h
    exact h.symm

theorem reshapeCell_error {w : WideResult} {ps : List Rat} {nM : Nat} {c : String}
    {d : DataType} {mi : Nat} {e : DescribeError}
    (h : reshapeCell w ps nM c d mi = .error e) : ∃ nm, e = .columnNotFound nm := by
  unfold reshapeCell at h
  split at h
  · rename_i e' hcol
    simp at h
    exact ⟨metricName ps nM c mi, by rw [← h]; exact column_error hcol⟩
  · rename_i rows hcol
    split at h <;> simp at h

theorem reshapeColumn_ok {w : WideResult} {ps : List Rat} {nM : Nat} {c : String}
    {d : DataType} {b : String × List String}
    (h : reshapeColumn w ps nM c d = .ok b) :
    ∃ vals, mapExcept (reshapeCell w ps nM c d) (List.range nM) = .ok vals ∧ b = (c, vals) := by
  unfold reshapeColumn at h
  cases hm : mapExcept (reshapeCell w ps nM c d) (List.range nM) with
  | error e => rw [hm] at h; simp at h
  | ok vals =>
    rw [hm] at h
    simp at h
    exact ⟨vals, rfl, h.symm⟩

theorem reshapeColumn_error {w : WideResult} {ps : List Rat} {nM : Nat} {c : String}
    {d : DataType} {e : DescribeError}
    (h : reshapeColumn w ps nM c d = .error e) : ∃ nm, e = .columnNotFound nm := by
  unfold reshapeColumn at h
  cases hm : mapExcept (reshapeCell w ps nM c d) (List.range nM) with
  | error e' =>
    rw [hm] at h
    simp at h
    obtain ⟨a, _, ha⟩ := mapExcept_error_mem (e := e') hm
    exact h ▸ reshapeCell_error ha
  | ok vals => rw [hm] at h; simp at h

theorem describe_ok_parts {lf : LazyFrame} {psOpt : Option (List Rat)} {t : OutputTable}
    (h : describe_lazy_impl lf psOpt = .ok t) :
    ∃ w dataCols,
      lf.execSelect (buildMetricExprs lf.schema (psOpt.getD [0.25, 0.50, 0.75])) = .ok w ∧
      mapExcept (fun c => reshapeColumn w (psOpt.getD [0.25, 0.50, 0.75])
          (mkMetrics (psOpt.getD [0.25, 0.50, 0.75])).length c.1 c.2) lf.schema = .ok dataCols ∧
      t.columns = ("statistic", mkMetrics (psOpt.getD [0.25, 0.50, 0.75])) :: dataCols := by
  unfold describe_lazy_impl at h
  by_cases hemp : lf.schema.isEmpty
  · rw [if_pos hemp] at h
    simp at h
  · rw [if_neg hemp] at h
    simp only [] at h
    cases hw : lf.execSelect (buildMetricExprs lf.schema (psOpt.getD [0.25, 0.50, 0.75])) with
    | error e => rw [hw] at h; simp at h
    | ok w =>
      rw [hw] at h
      simp only [] at h
      cases hm : mapExcept (fun c => reshapeColumn w (psOpt.getD [0.25, 0.50, 0.75])
          (mkMetrics (psOpt.getD [0.25, 0.50, 0.75])).length c.1 c.2) lf.schema with
      | error e => rw [hm] at h; simp at h
      | ok dataCols =>
        rw [hm] at h
        simp only [] at h
        exact ⟨w, dataCols, rfl, hm, mkOutput_ok h⟩

theorem digitChar_isDigit : ∀ m, m < 10 → (Nat.digitChar m).isDigit = true := by decide

theorem digitChar_ne_dot : ∀ m, m < 10 → Nat.digitChar m ≠ '.' := by decide

theorem natDecimalGo_digits : ∀ (fuel n : Nat), ∀ c ∈ natDecimalGo fuel n, c.isDigit = true := by
  intro fuel
  induction fuel with
  | zero =>
    intro n c hc
    cases n <;> simp [natDecimalGo] at hc
  | succ fuel ih =>
    intro n c hc
    cases n with
    | zero => simp [natDecimalGo] at hc
    | succ n =>
      simp only [natDecimalGo] at hc
      rcases List.mem_append.mp hc with hc | hc
      · exact ih _ c hc
      · simp at hc
        subst hc
        exact digitChar_isDigit _ (Nat.mod_lt _ (by omega))

theorem natDecimal_digits (n : Nat) : ∀ c ∈ (natDecimal n).data, c.isDigit = true := by
  unfold natDecimal
  split
  · intro c hc
    have h0 : ("0" : String).data = ['0'] := rfl
    rw [h0] at hc
    simp at hc
    subst hc
    decide
  · intro c hc
    exact natDecimalGo_digits n n c hc

theorem intDecimal_no_dot (n : Int) : ∀ c ∈ (intDecimal n).data, c ≠ '.' := by
  intro c hc
  unfold intDecimal at hc
  split at hc
  · have hdata : ("-" ++ natDecimal n.natAbs).data = '-' :: (natDecimal n.natAbs).data := rfl
    rw [hdata] at hc
    rcases List.mem_cons.mp hc with hc | hc
    · subst hc; decide
    · intro h
      subst h
      exact absurd (natDecimal_digits n.natAbs '.' hc) (by decide)
  · intro h
    subst h
    exact absurd (natDecimal_digits n.natAbs '.' hc) (by decide)

theorem natDigitsPad_data_length : ∀ (w n : Nat), (natDigitsPad n w).data.length = w := by
  intro w
  induction w with
  | zero => intro n; rfl
  | succ w ih =>
    intro n
    have hdata : (natDigitsPad n (w + 1)).data
        = (natDigitsPad (n / 10) w).data ++ [Nat.digitChar (n % 10)] := rfl
    rw [hdata]
    simp [ih]

theorem natDigitsPad_digits : ∀ (w n : Nat), ∀ c ∈ (natDigitsPad n w).data, c.isDigit = true := by
  intro w
  induction w with
  | zero =>
    intro n c hc
    simp [natDigitsPad] at hc
  | succ w ih =>
    intro n c hc
    have hdata : (natDigitsPad n (w + 1)).data
        = (natDigitsPad (n / 10) w).data ++ [Nat.digitChar (n % 10)] := rfl
    rw [hdata] at hc
    rcases List.mem_append.mp hc with hc | hc
    · exact ih _ c hc
    · simp at hc
      subst hc
      exact digitChar_isDigit _ (Nat.mod_lt _ (by omega))

theorem formatFixed6_structure (q : Rat) :
    ∃ s f : String, formatFixed6 q = s ++ "." ++ f ∧ f.length = 6 ∧
      ∀ c ∈ f.data, c.isDigit = true := by
  refine ⟨(if q.num < 0 then "-" else "")
      ++ natDecimal ((q.num.natAbs * 2000000 + q.den) / (2 * q.den) / 1000000),
    natDigitsPad ((q.num.natAbs * 2000000 + q.den) / (2 * q.den) % 1000000) 6,
    rfl, ?_, ?_⟩
  · exact natDigitsPad_data_length 6 _
  · exact natDigitsPad_digits 6 _

theorem formatCell_null (d : DataType) (nM mi : Nat) : formatCell d nM mi .null = "null" := rfl

theorem formatCell_le_one (d : DataType) (nM mi : Nat) (v : AnyValue)
    (hmi : mi ≤ 1) (hv : v.is_null = false) : formatCell d nM mi v = v.display := by
  unfold formatCell
  rw [hv]
  simp [hmi]

theorem formatCell_meanstd_numres (d : DataType) (nM mi : Nat) (v : AnyValue)
    (hnr : is_numeric_result d = true) (hmi : mi = 2 ∨ mi = 3) (hv : v.is_null = false) :
    formatCell d nM mi v = v.displayPrec6 := by
  unfold formatCell
  rcases hmi with h | h <;> subst h <;> simp [hv, hnr]

theorem formatCell_meanstd_other (d : DataType) (nM mi : Nat) (v : AnyValue)
    (hnr : is_numeric_result d = false) (hmi : mi = 2 ∨ mi = 3) (hv : v.is_null = false) :
    formatCell d nM mi v = v.display := by
  have hb : (d == DataType.boolean) = false := by
    cases d <;> simp_all [is_numeric_result]
  unfold formatCell
  rcases hmi with h | h <;> subst h <;> simp [hv, hnr, hb]

theorem formatCell_min_bool (nM : Nat) (v : AnyValue) (hv : v.is_null = false) :
    formatCell .boolean nM 4 v = "false" := by
  unfold formatCell
  simp [hv, is_numeric_result]

theorem formatCell_max_bool (n : Nat) (v : AnyValue) (hv : v.is_null = false) :
    formatCell .boolean (n + 6) (n + 5) v = "true" := by
  unfold formatCell
  rw [hv]
  rw [if_neg (by simp)]
  rw [if_neg (by omega)]
  rw [if_neg (by simp)]
  rw [if_pos (by simp)]
  rw [if_neg (by simp)]

theorem engineConforms_column {reqs : List AggRequest} {w : WideResult} {r : AggRequest}
    (hc : engineConforms reqs w = true) (hr : r ∈ reqs) :
    ∃ v, w.column r.key = .ok [v] ∧ scalarOk r.expr v = true := by
  have h := (List.all_eq_true.mp hc) r hr
  cases hcol : w.column r.key with
  | error e => simp [columnScalarOk, hcol] at h
  | ok rows =>
    cases rows with
    | nil => simp [columnScalarOk, hcol] at h
    | cons v t =>
      cases t with
      | nil =>
        refine ⟨v, rfl, ?_⟩
        simpa [columnScalarOk, hcol] using h
      | cons v' t' => simp [columnScalarOk, hcol] at h

theorem mem_buildMetricExprs {schema : List (String × DataType)} {ps : List Rat}
    {c : String} {d : DataType} {r : AggRequest}
    (hcd : (c, d) ∈ schema) (hr : r ∈ planColumn c d ps) :
    r ∈ buildMetricExprs schema ps := by
  unfold buildMetricExprs
  exact List.mem_flatMap.mpr ⟨(c, d), hcd, hr⟩

theorem describe_cell {lf : LazyFrame} {psOpt : Option (List Rat)} {t : OutputTable}
    {w : WideResult} {k : Nat} {name : String} {dtype : DataType} (mi : Nat)
    (hk : lf.schema.get? k = some (name, dtype))
    (hw : lf.execSelect (buildMetricExprs lf.schema (psOpt.getD [0.25, 0.50, 0.75])) = .ok w)
    (ht : describe_lazy_impl lf psOpt = .ok t)
    (hmi : mi < (mkMetrics (psOpt.getD [0.25, 0.50, 0.75])).length) :
    ∃ rows cell, t.columns.get? (k + 1) = some (name, rows) ∧
      rows.get? mi = some cell ∧
      reshapeCell w (psOpt.getD [0.25, 0.50, 0.75])
        (mkMetrics (psOpt.getD [0.25, 0.50, 0.75])).length name dtype mi = .ok cell := by
  obtain ⟨w', dataCols, hw', hm, hcols⟩ := describe_ok_parts ht
  have hww : w' = w := Except.ok.inj (hw'.symm.trans hw)
  subst hww
  obtain ⟨b, hb, hrb⟩ := mapExcept_ok_get? hm hk
  obtain ⟨vals, hvals, hbeq⟩ := reshapeColumn_ok hrb
  subst hbeq
  obtain ⟨cell, hcell, hrc⟩ := mapExcept_ok_get? hvals (List.get?_range hmi)
  refine ⟨vals, cell, ?_, hcell, hrc⟩
  rw [hcols]
  simpa using hb

theorem reshapeCell_conforming {w : WideResult} {ps : List Rat} {nM : Nat}
    {name key : String} {dtype : DataType} {mi : Nat} {v : AnyValue} {cell : String}
    (hkey : metricName ps nM name mi = key)
    (hcol : w.column key = .ok [v])
    (hrc : reshapeCell w ps nM name dtype mi = .ok cell) :
    cell = formatCell dtype nM mi v := by
  unfold reshapeCell at hrc
  rw [hkey, hcol] at hrc
  simp at hrc
  exact hrc.symm

theorem scalarOk_mean_shape {dtype : DataType} {c : String} {v : AnyValue}
    (h : scalarOk
      (if (!dtype.is_numeric && dtype.is_temporal) || dtype.is_numeric || dtype == .boolean then
        (if dtype == .boolean then AggExpr.meanBoolAsF64 c else .mean c)
      else .nullLitF64) v = true) :
    v = .null ∨ ∃ q, v = .float q := by
  rcases v with _ | n | q | b | s
  · exact Or.inl rfl
  · exfalso
    revert h
    split
    · split <;> simp [scalarOk]
    · simp [scalarOk]
  · exact Or.inr ⟨q, rfl⟩
  · exfalso
    revert h
    split
    · split <;> simp [scalarOk]
    · simp [scalarOk]
  · exfalso
    revert h
    split
    · split <;> simp [scalarOk]
    · simp [scalarOk]

theorem scalarOk_std_shape {dtype : DataType} {c : String} {v : AnyValue}
    (h : scalarOk (if dtype.is_numeric then AggExpr.std c 1 else .nullLitF64) v = true) :
    v = .null ∨ ∃ q, v = .float q := by
  rcases v with _ | n | q | b | s
  · exact Or.inl rfl
  · exfalso; revert h; split <;> simp [scalarOk]
  · exact Or.inr ⟨q, rfl⟩
  · exfalso; revert h; split <;> simp [scalarOk]
  · exfalso; revert h; split <;> simp [scalarOk]

theorem scalarOk_int_shape (c c' : String) {v : AnyValue}
    (h : scalarOk (AggExpr.count c) v = true ∨ scalarOk (AggExpr.nullCount c') v = true) :
    ∃ n, v = .int n := by
  rcases v with _ | n | q | b | s
  · rcases h with h | h <;> simp [scalarOk] at h
  · exact ⟨n, rfl⟩
  · rcases h with h | h <;> simp [scalarOk] at h
  · rcases h with h | h <;> simp [scalarOk] at h
  · rcases h with h | h <;> simp [scalarOk] at h

theorem is_numeric_result_of_abc {dtype : DataType}
    (h : dtype.is_numeric = true ∨ dtype = .boolean ∨ dtype = .null) :
    is_numeric_result dtype = true := by
  rcases h with h | h | h
  · simp [is_numeric_result, h]
  · subst h; rfl
  · subst h; rfl

/-! ## Claim theorems -/

/-- C1: for every column, the planner emits, in fixed positions: `count` and
`null_count` for all types; `mean` only for Numeric, Temporal and Boolean
columns (Boolean widened to `Float64` before averaging); `std` with ddof 1
only for Numeric; `min`/`max` for all types except nested/composite,
categorical-like and Null/Unknown; one linear-interpolation quantile per
requested percentile only for Numeric; and in every non-applicable case the
typed null placeholder `lit(NULL).cast(Float64)`. -/
theorem c1_statistic_dispatch (col_name : String) (dtype : DataType) (ps : List Rat) :
    (planColumn col_name dtype ps).get? 0 = some ⟨"count:" ++ col_name, .count col_name⟩
  ∧ (planColumn col_name dtype ps).get? 1 = some ⟨"null_count:" ++ col_name, .nullCount col_name⟩
  ∧ (planColumn col_name dtype ps).get? 2 = some ⟨"mean:" ++ col_name,
      if dtype = .boolean then .meanBoolAsF64 col_name
      else if dtype.is_numeric = true ∨ dtype.is_temporal = true then .mean col_name
      else .nullLitF64⟩
  ∧ (planColumn col_name dtype ps).get? 3 = some ⟨"std:" ++ col_name,
      if dtype.is_numeric = true then .std col_name 1 else .nullLitF64⟩
  ∧ (planColumn col_name dtype ps).get? 4 = some ⟨"min:" ++ col_name,
      if dtype.is_nested = true ∨ dtype = .categorical ∨ dtype = .null ∨ dtype = .unknown
      then .nullLitF64 else .min col_name⟩
  ∧ (∀ i, i < ps.length →
      (planColumn col_name dtype ps).get? (5 + i) = some ⟨pctKey (ps.getD i 0) i col_name,
        if dtype.is_numeric = true then .quantileLinear col_name (ps.getD i 0)
        else .nullLitF64⟩)
  ∧ (planColumn col_name dtype ps).get? (5 + ps.length) = some ⟨"max:" ++ col_name,
      if dtype.is_nested = true ∨ dtype = .categorical ∨ dtype = .null ∨ dtype = .unknown
      then .nullLitF64 else .max col_name⟩
  ∧ (planColumn col_name dtype ps).length = ps.length + 6 := by
  refine ⟨planColumn_get?_zero _ _ _, planColumn_get?_one _ _ _, ?_, ?_, ?_, ?_, ?_,
    planColumn_length _ _ _⟩
  · rw [planColumn_get?_two]
    cases dtype <;> rfl
  · rw [planColumn_get?_three]
  · rw [planColumn_get?_four]
    cases dtype <;> rfl
  · intro i hi
    rw [planColumn_get?_pct _ _ _ _ hi]
  · rw [planColumn_get?_max]
    cases dtype <;> rfl

/-- Witness for C1: the percentile clause evaluated for a Float64 column
with the single percentile 0.5 at position 0. -/
theorem c1_statistic_dispatch_witness :
    (planColumn "v" DataType.float64 [mkRat 1 2]).get? 5
      = some ⟨pctKey (mkRat 1 2) 0 "v", .quantileLinear "v" (mkRat 1 2)⟩ := by
  have h := (c1_statistic_dispatch "v" DataType.float64 [mkRat 1 2]).2.2.2.2.2.1 0 (by decide)
  exact h

/-- C2: whenever `describe` succeeds on a non-empty schema, the output table
has exactly `5 + |percentiles| + 1` rows in every column and exactly
`1 + |schema|` columns. -/
theorem c2_output_shape (lf : LazyFrame) (psOpt : Option (List Rat)) (t : OutputTable)
    (hne : lf.schema ≠ []) (h : describe_lazy_impl lf psOpt = .ok t) :
    t.columns.length = 1 + lf.schema.length
  ∧ ∀ col ∈ t.columns, col.2.length = 5 + (psOpt.getD [0.25, 0.50, 0.75]).length + 1 := by
  obtain ⟨w, dataCols, hw, hm, hcols⟩ := describe_ok_parts h
  constructor
  · rw [hcols]
    simp [mapExcept_ok_length hm]
    omega
  · intro col hcol
    rw [hcols] at hcol
    rcases List.mem_cons.mp hcol with hcol | hcol
    · subst hcol
      rw [mkMetrics_length]
      omega
    · obtain ⟨a, _, hra⟩ := mapExcept_ok_mem hm hcol
      obtain ⟨vals, hvals, hcolEq⟩ := reshapeColumn_ok hra
      have hlen := mapExcept_ok_length hvals
      simp [List.length_range, mkMetrics_length] at hlen
      rw [hcolEq]
      simpa [hlen] using by omega

/-- Witness for C2: shape of the concrete output for `lfEx` with an empty
percentile list. -/
theorem c2_output_shape_witness :
    tEx.columns.length = 1 + lfEx.schema.length
  ∧ ∀ col ∈ tEx.columns, col.2.length = 5 + ((some ([] : List Rat)).getD [0.25, 0.50, 0.75]).length + 1 :=
  c2_output_shape lfEx (some []) tEx (by decide) rfl

/-- C3: the output's first column is the `"statistic"` label column whose
rows are, in order, `count`, `null_count`, `mean`, `std`, `min`, one
`"{percent}%"` label per percentile in request order (percent = fraction
times 100 truncated to an integer), then `max`; the remaining columns carry
the schema's column names in original order. -/
theorem c3_row_order_and_columns (lf : LazyFrame) (psOpt : Option (List Rat)) (t : OutputTable)
    (h : describe_lazy_impl lf psOpt = .ok t) :
    t.columns.map Prod.fst = "statistic" :: lf.schema.map Prod.fst
  ∧ t.columns.get? 0 = some ("statistic",
      ["count", "null_count", "mean", "std", "min"]
        ++ (psOpt.getD [0.25, 0.50, 0.75]).map
            (fun p => toString (ratTruncToInt (p * 100)) ++ "%")
        ++ ["max"]) := by
  obtain ⟨w, dataCols, hw, hm, hcols⟩ := describe_ok_parts h
  constructor
  · rw [hcols]
    have hname : ∀ (a : String × DataType) (b : String × List String),
        reshapeColumn w (psOpt.getD [0.25, 0.50, 0.75])
          (mkMetrics (psOpt.getD [0.25, 0.50, 0.75])).length a.1 a.2 = .ok b →
        b.1 = a.1 := by
      intro a b hab
      obtain ⟨vals, _, hb⟩ := reshapeColumn_ok hab
      rw [hb]
    have hmap := mapExcept_ok_map_eq hname hm
    simp [hmap]
  · rw [hcols]
    rfl

/-- Witness for C3: the concrete output for `lfEx` with the default
percentiles. -/
theorem c3_row_order_and_columns_witness :
    tEx.columns.map Prod.fst = "statistic" :: lfEx.schema.map Prod.fst
  ∧ tEx.columns.get? 0 = some ("statistic",
      ["count", "null_count", "mean", "std", "min"]
        ++ ((some ([] : List Rat)).getD [0.25, 0.50, 0.75]).map
            (fun p => toString (ratTruncToInt (p * 100)) ++ "%")
        ++ ["max"]) :=
  c3_row_order_and_columns lfEx (some []) tEx rfl

/-- C4: describing a zero-column dataset fails with the empty-schema error,
independently of the engine (so before any engine execution); with at least
one column this error never occurs. -/
theorem c4_empty_schema_error (lf : LazyFrame) (psOpt : Option (List Rat)) :
    (lf.schema = [] → describe_lazy_impl lf psOpt = .error .emptySchema)
  ∧ (lf.schema = [] →
      ∀ exec : List AggRequest → Except EngineError WideResult,
        describe_lazy_impl ⟨lf.schema, exec⟩ psOpt = .error .emptySchema)
  ∧ (lf.schema ≠ [] → describe_lazy_impl lf psOpt ≠ .error .emptySchema) := by
  refine ⟨?_, ?_, ?_⟩
  · intro h
    simp [describe_lazy_impl, h]
  · intro h exec
    simp [describe_lazy_impl, h]
  · intro hne hcontra
    unfold describe_lazy_impl at hcontra
    rw [if_neg (by simpa using hne)] at hcontra
    simp only [] at hcontra
    cases hw : lf.execSelect (buildMetricExprs lf.schema (psOpt.getD [0.25, 0.50, 0.75])) with
    | error e => rw [hw] at hcontra; simp at hcontra
    | ok w =>
      rw [hw] at hcontra
      simp only [] at hcontra
      cases hm : mapExcept (fun c => reshapeColumn w (psOpt.getD [0.25, 0.50, 0.75])
          (mkMetrics (psOpt.getD [0.25, 0.50, 0.75])).length c.1 c.2) lf.schema with
      | error e =>
        rw [hm] at hcontra
        simp at hcontra
        obtain ⟨a, _, ha⟩ := mapExcept_error_mem hm
        obtain ⟨nm, hnm⟩ := reshapeColumn_error ha
        rw [hcontra] at hnm
        cases hnm
      | ok dataCols =>
        rw [hm] at hcontra
        simp only [] at hcontra
        unfold mkOutput at hcontra
        split at hcontra <;> simp at hcontra

/-- Witness for C4: the empty frame fails with the empty-schema error, the
two-column frame does not. -/
theorem c4_empty_schema_error_witness :
    describe_lazy_impl lfEmpty (some [0.25, 0.50, 0.75]) = .error .emptySchema
  ∧ describe_lazy_impl lfEx (some [0.25, 0.50, 0.75]) ≠ .error .emptySchema :=
  ⟨(c4_empty_schema_error lfEmpty (some [0.25, 0.50, 0.75])).1 rfl,
   (c4_empty_schema_error lfEx (some [0.25, 0.50, 0.75])).2.2 (by decide)⟩

/-- C5 counterexample: with a wide result that lacks the synthetic key
`count:a`, the describe call fails with a column-not-found error instead of
degrading the cell to `"null"` — refuting the claim that a key absent from
the wide result never fails the call. -/
theorem c5_counterexample :
    describe_lazy_impl lfMissing (some []) = .error (.columnNotFound "count:a") := rfl

/-- C5 (amended): a synthetic key that is present in the wide result but
whose column has no row 0 degrades to a `"null"` cell; a key entirely absent
from the wide result propagates the lookup error and fails the describe
call. -/
theorem c5_missing_key_vs_missing_row (w : WideResult) (ps : List Rat) (nM : Nat)
    (c : String) (d : DataType) (mi : Nat) :
    (w.column (metricName ps nM c mi) = .ok [] →
      reshapeCell w ps nM c d mi = .ok "null")
  ∧ ∀ e, w.column (metricName ps nM c mi) = .error e →
      reshapeCell w ps nM c d mi = .error e := by
  constructor
  · intro h
    unfold reshapeCell
    rw [h]
    rfl
  · intro e h
    unfold reshapeCell
    rw [h]

/-- Witness for C5's amended statement: a present `count:a` column with no
row 0 yields the `"null"` cell. -/
theorem c5_missing_key_vs_missing_row_witness :
    reshapeCell wEmptyRow [] 6 "a" .float64 0 = .ok "null" :=
  (c5_missing_key_vs_missing_row wEmptyRow [] 6 "a" .float64 0).1 rfl

/-- C9: an absent percentile argument behaves exactly as the default list
`[0.25, 0.50, 0.75]`; a supplied list keeps its order in the metric labels
and is not deduplicated — every occurrence yields its own label row and its
own aggregation request whose key is qualified by the occurrence's
position. -/
theorem c9_percentile_handling (lf : LazyFrame) (ps : List Rat) (c : String) (d : DataType) :
    describe_lazy_impl lf none = describe_lazy_impl lf (some [0.25, 0.50, 0.75])
  ∧ mkMetrics ps = ["count", "null_count", "mean", "std", "min"]
      ++ ps.map (fun p => toString (ratTruncToInt (p * 100)) ++ "%") ++ ["max"]
  ∧ (planColumn c d ps).length = ps.length + 6
  ∧ (∀ i, i < ps.length →
      (planColumn c d ps).get? (5 + i)
        = some ⟨toString (ps.getD i 0) ++ ":" ++ toString i ++ ":" ++ c,
            if d.is_numeric then .quantileLinear c (ps.getD i 0) else .nullLitF64⟩) := by
  refine ⟨rfl, rfl, planColumn_length c d ps, ?_⟩
  intro i hi
  rw [planColumn_get?_pct c d ps i hi]
  rfl

/-- Witness for C9: the duplicated list `[0.5, 0.5]` yields two distinct
position-qualified requests. -/
theorem c9_percentile_handling_witness :
    (planColumn "v" DataType.int64 [mkRat 1 2, mkRat 1 2]).get? 5
        = some ⟨"1/2:0:v", .quantileLinear "v" (mkRat 1 2)⟩
  ∧ (planColumn "v" DataType.int64 [mkRat 1 2, mkRat 1 2]).get? 6
        = some ⟨"1/2:1:v", .quantileLinear "v" (mkRat 1 2)⟩
  ∧ ("1/2:0:v" : String) ≠ "1/2:1:v" := by
  refine ⟨?_, ?_, by decide⟩
  · have h := (c9_percentile_handling lfEx [mkRat 1 2, mkRat 1 2] "v" DataType.int64).2.2.2
      0 (by decide)
    exact h.trans (by decide)
  · have h := (c9_percentile_handling lfEx [mkRat 1 2, mkRat 1 2] "v" DataType.int64).2.2.2
      1 (by decide)
    exact h.trans (by decide)

/-- C6: for every Boolean column, as long as the engine's min/max scalars for
it are non-null (which any actual boolean data produces), the min-row cell is
exactly `"false"` and the max-row cell is exactly `"true"`, whatever the
scalar values are. -/
theorem c6_boolean_min_max (lf : LazyFrame) (psOpt : Option (List Rat)) (t : OutputTable)
    (w : WideResult) (k : Nat) (name : String)
    (minRows maxRows : List AnyValue) (vmin vmax : AnyValue)
    (hk : lf.schema.get? k = some (name, .boolean))
    (hw : lf.execSelect (buildMetricExprs lf.schema (psOpt.getD [0.25, 0.50, 0.75])) = .ok w)
    (ht : describe_lazy_impl lf psOpt = .ok t)
    (hminc : w.column ("min:" ++ name) = .ok minRows)
    (hminv : minRows.get? 0 = some vmin) (hminn : vmin.is_null = false)
    (hmaxc : w.column ("max:" ++ name) = .ok maxRows)
    (hmaxv : maxRows.get? 0 = some vmax) (hmaxn : vmax.is_null = false) :
    ∃ rows, t.columns.get? (k + 1) = some (name, rows) ∧
      rows.get? 4 = some "false" ∧
      rows.get? ((mkMetrics (psOpt.getD [0.25, 0.50, 0.75])).length - 1) = some "true" := by
  have hnM : (mkMetrics (psOpt.getD [0.25, 0.50, 0.75])).length
      = (psOpt.getD [0.25, 0.50, 0.75]).length + 6 := mkMetrics_length _
  obtain ⟨rows4, cell4, hcol4, hget4, hrc4⟩ := describe_cell 4 hk hw ht (by omega)
  obtain ⟨rowsM, cellM, hcolM, hgetM, hrcM⟩ :=
    describe_cell ((mkMetrics (psOpt.getD [0.25, 0.50, 0.75])).length - 1) hk hw ht (by omega)
  have heq : (name, rows4) = (name, rowsM) := Option.some.inj (hcol4.symm.trans hcolM)
  have hrows : rowsM = rows4 := (congrArg Prod.snd heq).symm
  rw [hrows] at hgetM
  have h4 : cell4 = "false" := by
    unfold reshapeCell at hrc4
    rw [metricName_four, hminc] at hrc4
    simp only [hminv] at hrc4
    rw [formatCell_min_bool ((mkMetrics (psOpt.getD [0.25, 0.50, 0.75])).length) vmin hminn]
      at hrc4
    exact (Except.ok.inj hrc4).symm
  have hM : cellM = "true" := by
    unfold reshapeCell at hrcM
    rw [hnM] at hrcM
    have e1 : (psOpt.getD [0.25, 0.50, 0.75]).length + 6 - 1
        = (psOpt.getD [0.25, 0.50, 0.75]).length + 5 := rfl
    rw [e1] at hrcM
    rw [metricName_max, hmaxc] at hrcM
    simp only [hmaxv] at hrcM
    rw [formatCell_max_bool _ vmax hmaxn] at hrcM
    exact (Except.ok.inj hrcM).symm
  refine ⟨rows4, hcol4, ?_, ?_⟩
  · rw [← h4]
    exact hget4
  · rw [← hM]
    exact hgetM

/-- Witness for C6: the boolean column `b` of the concrete output `tEx`
carries `"false"` in the min row and `"true"` in the max row even though the
stub engine returned the integer scalars 1 and 5. -/
theorem c6_boolean_min_max_witness :
    ∃ rows, tEx.columns.get? 2 = some ("b", rows) ∧
      rows.get? 4 = some "false" ∧
      rows.get? ((mkMetrics ((some ([] : List Rat)).getD [0.25, 0.50, 0.75])).length - 1)
        = some "true" :=
  c6_boolean_min_max lfEx (some []) tEx wEx 1 "b" [.int 1] [.int 5] (.int 1) (.int 5)
    rfl rfl rfl rfl rfl rfl rfl rfl rfl

/-- C7: with a conforming engine, the mean and std cells of a column whose
type is Numeric, Boolean or Null are `"null"` or carry exactly 6 digits
after the decimal point; for a column of any other type those cells are the
wide scalar's natural display representation. -/
theorem c7_fixed_precision_mean_std (lf : LazyFrame) (psOpt : Option (List Rat)) (t : OutputTable)
    (w : WideResult) (k : Nat) (name : String) (dtype : DataType)
    (hk : lf.schema.get? k = some (name, dtype))
    (hw : lf.execSelect (buildMetricExprs lf.schema (psOpt.getD [0.25, 0.50, 0.75])) = .ok w)
    (hconf : engineConforms (buildMetricExprs lf.schema (psOpt.getD [0.25, 0.50, 0.75])) w = true)
    (ht : describe_lazy_impl lf psOpt = .ok t) :
    (∀ q : Rat, ∃ s f : String, formatFixed6 q = s ++ "." ++ f ∧ f.length = 6 ∧
        ∀ ch ∈ f.data, ch.isDigit = true)
  ∧ ∃ rows, t.columns.get? (k + 1) = some (name, rows) ∧
      ∀ mi, mi = 2 ∨ mi = 3 →
        ∃ cell, rows.get? mi = some cell ∧
          ((dtype.is_numeric = true ∨ dtype = .boolean ∨ dtype = .null →
              cell = "null" ∨ ∃ q : Rat, cell = formatFixed6 q)
           ∧ (¬(dtype.is_numeric = true ∨ dtype = .boolean ∨ dtype = .null) →
              ∃ v : AnyValue,
                w.column (metricName (psOpt.getD [0.25, 0.50, 0.75])
                    (mkMetrics (psOpt.getD [0.25, 0.50, 0.75])).length name mi) = .ok [v] ∧
                cell = v.display)) := by
  refine ⟨formatFixed6_structure, ?_⟩
  have hnM : (mkMetrics (psOpt.getD [0.25, 0.50, 0.75])).length
      = (psOpt.getD [0.25, 0.50, 0.75]).length + 6 := mkMetrics_length _
  obtain ⟨rows2, cell2, hcol2, hget2, hrc2⟩ := describe_cell 2 hk hw ht (by omega)
  obtain ⟨rows3, cell3, hcol3, hget3, hrc3⟩ := describe_cell 3 hk hw ht (by omega)
  have heq : (name, rows2) = (name, rows3) := Option.some.inj (hcol2.symm.trans hcol3)
  have hrows : rows3 = rows2 := (congrArg Prod.snd heq).symm
  rw [hrows] at hget3
  have hmem2 : (⟨"mean:" ++ name,
      if (!dtype.is_numeric && dtype.is_temporal) || dtype.is_numeric || dtype == .boolean then
        (if dtype == .boolean then AggExpr.meanBoolAsF64 name else .mean name)
      else .nullLitF64⟩ : AggRequest)
      ∈ buildMetricExprs lf.schema (psOpt.getD [0.25, 0.50, 0.75]) :=
    mem_buildMetricExprs (List.get?_mem hk) (List.get?_mem (planColumn_get?_two name dtype _))
  obtain ⟨v2, hcolv2, hsok2⟩ := engineConforms_column hconf hmem2
  have hcell2 : cell2 = formatCell dtype (mkMetrics (psOpt.getD [0.25, 0.50, 0.75])).length 2 v2 :=
    reshapeCell_conforming (metricName_two _ _ name) hcolv2 hrc2
  have hmem3 : (⟨"std:" ++ name,
      if dtype.is_numeric then AggExpr.std name 1 else .nullLitF64⟩ : AggRequest)
      ∈ buildMetricExprs lf.schema (psOpt.getD [0.25, 0.50, 0.75]) :=
    mem_buildMetricExprs (List.get?_mem hk) (List.get?_mem (planColumn_get?_three name dtype _))
  obtain ⟨v3, hcolv3, hsok3⟩ := engineConforms_column hconf hmem3
  have hcell3 : cell3 = formatCell dtype (mkMetrics (psOpt.getD [0.25, 0.50, 0.75])).length 3 v3 :=
    reshapeCell_conforming (metricName_three _ _ name) hcolv3 hrc3
  refine ⟨rows2, hcol2, ?_⟩
  intro mi hmi
  rcases hmi with hmi | hmi <;> subst hmi
  · refine ⟨cell2, hget2, ?_, ?_⟩
    · intro habc
      rcases scalarOk_mean_shape hsok2 with hv | ⟨q, hv⟩
      · subst hv
        left
        rw [hcell2]
        rfl
      · subst hv
        right
        refine ⟨q, ?_⟩
        rw [hcell2, formatCell_meanstd_numres dtype _ 2 (.float q)
          (is_numeric_result_of_abc habc) (Or.inl rfl) rfl]
        rfl
    · intro habc
      refine ⟨v2, ?_, ?_⟩
      · rw [metricName_two]
        exact hcolv2
      · rcases scalarOk_mean_shape hsok2 with hv | ⟨q, hv⟩
        · subst hv
          rw [hcell2]
          rfl
        · subst hv
          rw [hcell2]
          have hnr : is_numeric_result dtype = false := by
            cases dtype <;> simp_all [scalarOk, is_numeric_result, DataType.is_numeric,
              DataType.is_temporal, DataType.is_nested]
          exact formatCell_meanstd_other dtype _ 2 (.float q) hnr (Or.inl rfl) rfl
  · refine ⟨cell3, hget3, ?_, ?_⟩
    · intro habc
      rcases scalarOk_std_shape hsok3 with hv | ⟨q, hv⟩
      · subst hv
        left
        rw [hcell3]
        rfl
      · subst hv
        right
        refine ⟨q, ?_⟩
        rw [hcell3, formatCell_meanstd_numres dtype _ 3 (.float q)
          (is_numeric_result_of_abc habc) (Or.inr rfl) rfl]
        rfl
    · intro habc
      refine ⟨v3, ?_, ?_⟩
      · rw [metricName_three]
        exact hcolv3
      · rcases scalarOk_std_shape hsok3 with hv | ⟨q, hv⟩
        · subst hv
          rw [hcell3]
          rfl
        · subst hv
          rw [hcell3]
          have hnr : is_numeric_result dtype = false := by
            cases dtype <;> simp_all [scalarOk, is_numeric_result, DataType.is_numeric,
              DataType.is_temporal, DataType.is_nested]
          exact formatCell_meanstd_other dtype _ 3 (.float q) hnr (Or.inr rfl) rfl

/-- Witness for C7: the numeric column `a` of the concrete output, with the
stub engine conforming. -/
theorem c7_fixed_precision_mean_std_witness :
    (∀ q : Rat, ∃ s f : String, formatFixed6 q = s ++ "." ++ f ∧ f.length = 6 ∧
        ∀ ch ∈ f.data, ch.isDigit = true)
  ∧ ∃ rows, tEx.columns.get? 1 = some ("a", rows) ∧
      ∀ mi, mi = 2 ∨ mi = 3 →
        ∃ cell, rows.get? mi = some cell ∧
          ((DataType.int64.is_numeric = true ∨ DataType.int64 = .boolean
              ∨ DataType.int64 = .null →
              cell = "null" ∨ ∃ q : Rat, cell = formatFixed6 q)
           ∧ (¬(DataType.int64.is_numeric = true ∨ DataType.int64 = .boolean
              ∨ DataType.int64 = .null) →
              ∃ v : AnyValue,
                wEx.column (metricName ((some ([] : List Rat)).getD [0.25, 0.50, 0.75])
                    (mkMetrics ((some ([] : List Rat)).getD [0.25, 0.50, 0.75])).length "a" mi)
                  = .ok [v] ∧
                cell = v.display)) :=
  c7_fixed_precision_mean_std lfEx (some []) tEx wEx 0 "a" .int64 rfl rfl rfl rfl

/-- C8: with a conforming engine, the count and null_count cells of every
column are plain integer display strings and never contain a decimal
point. -/
theorem c8_count_cells_plain_integers (lf : LazyFrame) (psOpt : Option (List Rat))
    (t : OutputTable) (w : WideResult) (k : Nat) (name : String) (dtype : DataType)
    (hk : lf.schema.get? k = some (name, dtype))
    (hw : lf.execSelect (buildMetricExprs lf.schema (psOpt.getD [0.25, 0.50, 0.75])) = .ok w)
    (hconf : engineConforms (buildMetricExprs lf.schema (psOpt.getD [0.25, 0.50, 0.75])) w = true)
    (ht : describe_lazy_impl lf psOpt = .ok t) :
    ∃ rows, t.columns.get? (k + 1) = some (name, rows) ∧
      ∀ mi, mi = 0 ∨ mi = 1 →
        ∃ cell n, rows.get? mi = some cell ∧ cell = intDecimal n ∧
          ∀ ch ∈ cell.data, ch ≠ '.' := by
  have hnM : (mkMetrics (psOpt.getD [0.25, 0.50, 0.75])).length
      = (psOpt.getD [0.25, 0.50, 0.75]).length + 6 := mkMetrics_length _
  obtain ⟨rows0, cell0, hcol0, hget0, hrc0⟩ := describe_cell 0 hk hw ht (by omega)
  obtain ⟨rows1, cell1, hcol1, hget1, hrc1⟩ := describe_cell 1 hk hw ht (by omega)
  have heq : (name, rows0) = (name, rows1) := Option.some.inj (hcol0.symm.trans hcol1)
  have hrows : rows1 = rows0 := (congrArg Prod.snd heq).symm
  rw [hrows] at hget1
  have hmem0 : (⟨"count:" ++ name, AggExpr.count name⟩ : AggRequest)
      ∈ buildMetricExprs lf.schema (psOpt.getD [0.25, 0.50, 0.75]) :=
    mem_buildMetricExprs (List.get?_mem hk) (List.get?_mem (planColumn_get?_zero name dtype _))
  obtain ⟨v0, hcolv0, hsok0⟩ := engineConforms_column hconf hmem0
  obtain ⟨n0, hn0⟩ := scalarOk_int_shape name name (Or.inl hsok0)
  subst hn0
  have hcell0 : cell0 = formatCell dtype (mkMetrics (psOpt.getD [0.25, 0.50, 0.75])).length 0
      (.int n0) :=
    reshapeCell_conforming (metricName_zero _ _ name) hcolv0 hrc0
  have hmem1 : (⟨"null_count:" ++ name, AggExpr.nullCount name⟩ : AggRequest)
      ∈ buildMetricExprs lf.schema (psOpt.getD [0.25, 0.50, 0.75]) :=
    mem_buildMetricExprs (List.get?_mem hk) (List.get?_mem (planColumn_get?_one name dtype _))
  obtain ⟨v1, hcolv1, hsok1⟩ := engineConforms_column hconf hmem1
  obtain ⟨n1, hn1⟩ := scalarOk_int_shape name name (Or.inr hsok1)
  subst hn1
  have hcell1 : cell1 = formatCell dtype (mkMetrics (psOpt.getD [0.25, 0.50, 0.75])).length 1
      (.int n1) :=
    reshapeCell_conforming (metricName_one _ _ name) hcolv1 hrc1
  refine ⟨rows0, hcol0, ?_⟩
  intro mi hmi
  rcases hmi with hmi | hmi <;> subst hmi
  · refine ⟨cell0, n0, hget0, ?_, ?_⟩
    · rw [hcell0, formatCell_le_one dtype _ 0 (.int n0) (by omega) rfl]
      rfl
    · intro ch hch
      rw [hcell0, formatCell_le_one dtype _ 0 (.int n0) (by omega) rfl] at hch
      exact intDecimal_no_dot n0 ch hch
  · refine ⟨cell1, n1, hget1, ?_, ?_⟩
    · rw [hcell1, formatCell_le_one dtype _ 1 (.int n1) (by omega) rfl]
      rfl
    · intro ch hch
      rw [hcell1, formatCell_le_one dtype _ 1 (.int n1) (by omega) rfl] at hch
      exact intDecimal_no_dot n1 ch hch

/-- Witness for C8: the count and null_count cells of column `a` in the
concrete output. -/
theorem c8_count_cells_plain_integers_witness :
    ∃ rows, tEx.columns.get? 1 = some ("a", rows) ∧
      ∀ mi, mi = 0 ∨ mi = 1 →
        ∃ cell n, rows.get? mi = some cell ∧ cell = intDecimal n ∧
          ∀ ch ∈ cell.data, ch ≠ '.' :=
  c8_count_cells_plain_integers lfEx (some []) tEx wEx 0 "a" .int64 rfl rfl rfl rfl

/-- C10: both public entry points delegate to the shared implementation; an
eager frame is described exactly as its lazy view. -/
theorem c10_eager_lazy_delegation (df : DataFrame) (lf : LazyFrame)
    (psOpt : Option (List Rat)) :
    DataFrame.describe df psOpt = describe_lazy_impl (DataFrame.lazy df) psOpt
  ∧ LazyFrame.describe lf psOpt = describe_lazy_impl lf psOpt
  ∧ DataFrame.describe df psOpt = LazyFrame.describe (DataFrame.lazy df) psOpt :=
  ⟨rfl, rfl, rfl⟩

end DescribeDf
